import Mathlib

/-!
Verification development for the resilient Senate-disclosure extraction
pipeline (`robust_senate_extractor.py` and
`enhanced_senate_scraper_with_direct_url.py`).

The Python source is shallowly embedded: HTML documents are modelled by the
structured view the code reads off them (tables as lists of rows of cell
texts, candidate divs as class/text pairs, plus the raw markup text), the
regular-expression searches of the source are hand-compiled to recursive
matchers with Python `re.search`/`re.findall` semantics (leftmost match,
greedy quantifiers with backtracking), Python exceptions are `Except Unit`,
and the Selenium/requests side effects of the fetcher and session manager
are oracles indexed by call counters, with the observable calls recorded in
an event trace.
-/

set_option maxRecDepth 4000

/-! ## String utilities (Python `in`, `.lower()`, `.strip()`) -/

/-- Python whitespace (`\s`, `str.strip`) restricted to ASCII. -/
def pyIsSpace (c : Char) : Bool :=
  c == ' ' || c == '\t' || c == '\n' || c == '\r' || c == '\x0b' || c == '\x0c'

/-- `listPrefixOf p s` : `p` is a prefix of `s`. -/
def listPrefixOf : List Char → List Char → Bool
  | [], _ => true
  | _ :: _, [] => false
  | a :: as, b :: bs => a == b && listPrefixOf as bs

/-- `listContains pat s` : `pat` occurs as a contiguous substring of `s`
(Python `pat in s`). -/
def listContains (pat : List Char) : List Char → Bool
  | [] => listPrefixOf pat []
  | s@(_ :: rest) => listPrefixOf pat s || listContains pat rest

/-- Python `needle in hay` on strings. -/
def containsStr (needle hay : String) : Bool :=
  listContains needle.data hay.data

/-- Python `s.lower()` (ASCII). -/
def pyLower (s : String) : String :=
  String.mk (s.data.map Char.toLower)

/-- Python `s.strip()` on a character list. -/
def pyStrip (l : List Char) : List Char :=
  ((l.dropWhile pyIsSpace).reverse.dropWhile pyIsSpace).reverse

/-- Case-insensitive prefix test: the pattern is given in lower case and each
subject character is lowered before comparison (`re.IGNORECASE`). -/
def ciPrefix : List Char → List Char → Bool
  | [], _ => true
  | _ :: _, [] => false
  | p :: ps, c :: cs => Char.toLower c == p && ciPrefix ps cs

/-! ## Hand-compiled regular-expression searches

Each Python pattern used by the source is compiled to an anchored matcher
(`...At`, returning the consumed length and/or captured group at the start of
the input) plus a scanner that advances one character at a time, which is
exactly `re.search`'s leftmost-match rule. Greedy counted repetitions
(`{1,2}`, `{1,5}`) backtrack from the longest candidate downwards, as the
Python engine does. -/

/-- `[A-Za-z\s]` (the asset-name character class). -/
def azSpace (c : Char) : Bool := c.isAlpha || pyIsSpace c

/-- `[\d,]` (the dollar-amount character class). -/
def amtChar (c : Char) : Bool := c.isDigit || c == ','

/-- Backtracking tail of `[(\[]([A-Z]{1,5})[)\]]`: `t` is the text right after
the opening bracket, `k` the candidate group length (tried longest-first). -/
def tryClose (t : List Char) : Nat → Option (List Char)
  | 0 => none
  | k + 1 =>
    if (t[k + 1]?).any (fun c => c == ')' || c == ']') then some (t.take (k + 1))
    else tryClose t k

/-- Anchored `[(\[]([A-Z]{1,5})[)\]]`. -/
def bracketAt : List Char → Option (List Char)
  | [] => none
  | c :: t =>
    if c == '(' || c == '[' then
      tryClose t (min ((t.takeWhile Char.isUpper).length) 5)
    else none

/-- `re.search` for `[(\[]([A-Z]{1,5})[)\]]` (group 1). -/
def searchBracket : List Char → Option (List Char)
  | [] => none
  | c :: rest =>
    match bracketAt (c :: rest) with
    | some g => some g
    | none => searchBracket rest

/-- Tail of `([A-Z]{1,5})\s*-`: after the candidate group the engine consumes
`\s*` greedily and then requires a hyphen. -/
def dashAfter (t : List Char) : Bool :=
  match t.dropWhile pyIsSpace with
  | '-' :: _ => true
  | _ => false

/-- Backtracking over the group length of `([A-Z]{1,5})\s*-`. -/
def tryDash (s : List Char) : Nat → Option (List Char)
  | 0 => none
  | k + 1 =>
    if dashAfter (s.drop (k + 1)) then some (s.take (k + 1)) else tryDash s k

/-- `re.search` for `([A-Z]{1,5})\s*-` (group 1). -/
def searchUpperDash : List Char → Option (List Char)
  | [] => none
  | c :: rest =>
    match tryDash (c :: rest) (min (((c :: rest).takeWhile Char.isUpper).length) 5) with
    | some g => some g
    | none => searchUpperDash rest

/-- `re.search` for `-\s*([A-Z]{1,5})` (group 1). -/
def searchDashUpper : List Char → Option (List Char)
  | [] => none
  | c :: rest =>
    if c == '-' then
      let u := rest.dropWhile pyIsSpace
      let run := (u.takeWhile Char.isUpper).length
      if 1 ≤ run then some (u.take (min run 5)) else searchDashUpper rest
    else searchDashUpper rest

/-- Anchored `(Purchase|Sale|Exchange)` with `re.IGNORECASE`; returns the
length matched (the three alternatives start with distinct letters, so at most
one can match at a given position). -/
def typeAt (s : List Char) : Option Nat :=
  if ciPrefix "purchase".data s then some 8
  else if ciPrefix "sale".data s then some 4
  else if ciPrefix "exchange".data s then some 8
  else none

/-- `re.search` for `(Purchase|Sale|Exchange)` (group 1, original casing). -/
def searchType : List Char → Option (List Char)
  | [] => none
  | c :: rest =>
    match typeAt (c :: rest) with
    | some n => some ((c :: rest).take n)
    | none => searchType rest

/-- Anchored `\d{1,2}/\d{4}` tail of the date pattern; returns consumed
length. The greedy `{1,2}` tries two digits before one. -/
def dateTail (s : List Char) : Option Nat :=
  let d2 := (s.takeWhile Char.isDigit).length
  if 2 ≤ d2 ∧ s[2]? = some '/' ∧ 4 ≤ ((s.drop 3).takeWhile Char.isDigit).length then
    some 7
  else if 1 ≤ d2 ∧ s[1]? = some '/' ∧ 4 ≤ ((s.drop 2).takeWhile Char.isDigit).length then
    some 6
  else none

/-- Anchored `\d{1,2}/\d{1,2}/\d{4}`; returns consumed length. -/
def dateAt (s : List Char) : Option Nat :=
  let d1 := (s.takeWhile Char.isDigit).length
  if 2 ≤ d1 ∧ s[2]? = some '/' then
    match dateTail (s.drop 3) with
    | some n => some (3 + n)
    | none =>
      if s[1]? = some '/' then (dateTail (s.drop 2)).map (fun n => 2 + n) else none
  else if 1 ≤ d1 ∧ s[1]? = some '/' then
    (dateTail (s.drop 2)).map (fun n => 2 + n)
  else none

/-- `re.search` for `(\d{1,2}/\d{1,2}/\d{4})` (group 1). -/
def searchDate : List Char → Option (List Char)
  | [] => none
  | c :: rest =>
    match dateAt (c :: rest) with
    | some n => some ((c :: rest).take n)
    | none => searchDate rest

/-- Anchored `(\$[\d,]+-\$[\d,]+|\$[\d,]+)`: the range alternative is tried
first; returns consumed length. -/
def amountAt : List Char → Option Nat
  | [] => none
  | c :: t =>
    if c == '$' then
      let r1 := (t.takeWhile amtChar).length
      if 1 ≤ r1 ∧ t[r1]? = some '-' ∧ t[r1 + 1]? = some '$' ∧
          1 ≤ ((t.drop (r1 + 2)).takeWhile amtChar).length then
        some (1 + r1 + 2 + ((t.drop (r1 + 2)).takeWhile amtChar).length)
      else if 1 ≤ r1 then some (1 + r1)
      else none
    else none

/-- `re.search` for `(\$[\d,]+-\$[\d,]+|\$[\d,]+)` (group 1). -/
def searchAmount : List Char → Option (List Char)
  | [] => none
  | c :: rest =>
    match amountAt (c :: rest) with
    | some n => some ((c :: rest).take n)
    | none => searchAmount rest

/-- `re.search` for `([A-Za-z\s]+(?:Inc|Corp|LLC|Ltd|ETF)?)` (group 1): the
greedy class run already swallows any suffix word, so the group is the maximal
`[A-Za-z\s]` run starting at the first character in the class. -/
def searchLetterRun : List Char → Option (List Char)
  | [] => none
  | c :: rest =>
    if azSpace c then some ((c :: rest).takeWhile azSpace)
    else searchLetterRun rest

/-! ## FieldExtractors (`extract_ticker`, `identify_transaction_owner`,
`is_likely_transaction`) -/

/-- `extract_ticker`: the three patterns are tried in the source's order and
the first `re.search` hit is returned. -/
def extract_ticker (s : String) : Option String :=
  match searchBracket s.data with
  | some g => some (String.mk g)
  | none =>
    match searchUpperDash s.data with
    | some g => some (String.mk g)
    | none =>
      match searchDashUpper s.data with
      | some g => some (String.mk g)
      | none => none

/-- `identify_transaction_owner`: case-insensitive keyword sets tested in the
fixed order spouse, child, family; default `self`. -/
def identify_transaction_owner (text : String) : String :=
  let t := pyLower text
  if (["spouse", "husband", "wife", "joint", "spousal"].any fun k => containsStr k t) then
    "spouse"
  else if (["child", "son", "daughter", "dependent", "minor"].any fun k => containsStr k t) then
    "child"
  else if (["family", "trust", "estate"].any fun k => containsStr k t) then
    "family"
  else "self"

/-- `is_likely_transaction`: any transaction-indicating keyword occurs in the
lowered text. -/
def is_likely_transaction (text : String) : Bool :=
  ["purchase", "sale", "exchange", "asset", "security", "$", "ticker"].any
    fun k => containsStr k (pyLower text)

/-! ## Data model -/

/-- A transaction record as the Python dict builds it: `none` in an outer
`Option` means the key is absent from the dict. `ticker` is
`Option (Option String)` because the key, when present, can hold Python
`None`. -/
structure Transaction where
  asset : Option String := none
  ticker : Option (Option String) := none
  transaction_type : Option String := none
  date : Option String := none
  amount : Option String := none
  owner : Option String := none
  relationship : Option String := none
  raw_text : Option String := none
  cell_count : Option Nat := none
deriving DecidableEq, Repr

/-- The structured view the parser reads off a retrieved HTML document:
`tables` are the `<table>` elements as rows of (already text-extracted)
cells, `divs` the `<div>` elements as (class attribute, text) pairs, and
`text` the raw markup string handed to the regex tier. -/
structure Doc where
  tables : List (List (List String)) := []
  divs : List (String × String) := []
  text : String := ""
deriving DecidableEq, Repr

/-! ## StructuredTableParser (`create_header_map`, `parse_tables`) -/

/-- Index of the first header matched by any of the synonym names
(`any(name in header for name in possible_names)` under `enumerate`). -/
def idxOfMatch (names : List String) : List String → Option Nat
  | [] => none
  | h :: t =>
    if names.any (fun n => containsStr n h) then some 0
    else (idxOfMatch names t).map (· + 1)

/-- The header map of `create_header_map`, one optional column index per
field (absent key = `none`). -/
structure HeaderMap where
  asset : Option Nat := none
  transaction_type : Option Nat := none
  date : Option Nat := none
  amount : Option Nat := none
  owner : Option Nat := none
  ticker : Option Nat := none
deriving DecidableEq, Repr

/-- `create_header_map` over the already-lowered header texts. -/
def create_header_map (headers : List String) : HeaderMap where
  asset := idxOfMatch ["asset", "security", "name", "description"] headers
  transaction_type := idxOfMatch ["transaction", "type", "action"] headers
  date := idxOfMatch ["date", "transaction date"] headers
  amount := idxOfMatch ["amount", "value"] headers
  owner := idxOfMatch ["owner"] headers
  ticker := idxOfMatch ["ticker", "symbol"] headers

/-- Python `if not header_map` (the dict is empty). -/
def HeaderMap.isEmptyMap (hm : HeaderMap) : Bool :=
  hm.asset.isNone && hm.transaction_type.isNone && hm.date.isNone &&
  hm.amount.isNone && hm.owner.isNone && hm.ticker.isNone

/-- Python list indexing `cell_texts[i]`: out of range raises `IndexError`,
modelled as `Except.error ()`. -/
def getCell (cells : List String) (i : Nat) : Except Unit String :=
  match cells[i]? with
  | some s => Except.ok s
  | none => Except.error ()

/-- The transaction dict before any mapped field is filled in:
`raw_text` and `cell_count` are always set. -/
def baseTrans (cellTexts : List String) : Transaction where
  raw_text := some (String.intercalate " | " cellTexts)
  cell_count := some cellTexts.length

/-- The `if 'asset' in header_map` block (also sets `ticker`). -/
def setAsset (cells : List String) (hm : HeaderMap) (t : Transaction) :
    Except Unit Transaction :=
  match hm.asset with
  | none => Except.ok t
  | some i =>
    (getCell cells i).map fun a =>
      { t with asset := some a, ticker := some (extract_ticker a) }

/-- The `if 'transaction_type' in header_map` block. -/
def setType (cells : List String) (hm : HeaderMap) (t : Transaction) :
    Except Unit Transaction :=
  match hm.transaction_type with
  | none => Except.ok t
  | some i => (getCell cells i).map fun v => { t with transaction_type := some v }

/-- The `if 'date' in header_map` block. -/
def setDate (cells : List String) (hm : HeaderMap) (t : Transaction) :
    Except Unit Transaction :=
  match hm.date with
  | none => Except.ok t
  | some i => (getCell cells i).map fun v => { t with date := some v }

/-- The `if 'amount' in header_map` block. -/
def setAmount (cells : List String) (hm : HeaderMap) (t : Transaction) :
    Except Unit Transaction :=
  match hm.amount with
  | none => Except.ok t
  | some i => (getCell cells i).map fun v => { t with amount := some v }

/-- The `if 'owner' in header_map` block (also classifies `relationship`). -/
def setOwner (cells : List String) (hm : HeaderMap) (t : Transaction) :
    Except Unit Transaction :=
  match hm.owner with
  | none => Except.ok t
  | some i =>
    (getCell cells i).map fun v =>
      { t with owner := some v, relationship := some (identify_transaction_owner v) }

/-- `extract_transaction_from_cells`: the five field blocks run in source
order; any out-of-range cell access raises. -/
def extract_transaction_from_cells (cells : List String) (hm : HeaderMap) :
    Except Unit Transaction :=
  (setAsset cells hm (baseTrans cells)).bind fun t1 =>
    (setType cells hm t1).bind fun t2 =>
      (setDate cells hm t2).bind fun t3 =>
        (setAmount cells hm t3).bind fun t4 =>
          setOwner cells hm t4

/-- The data-row loop of `parse_tables`: rows with fewer than 3 cells are
skipped; the extracted dict is always truthy, so every extraction appends. -/
def parseRows (hm : HeaderMap) : List (List String) → Except Unit (List Transaction)
  | [] => Except.ok []
  | cells :: rest =>
    if 3 ≤ cells.length then
      (extract_transaction_from_cells cells hm).bind fun t =>
        (parseRows hm rest).map fun ts => t :: ts
    else parseRows hm rest

/-- One `<table>` element of `parse_tables`: tables with fewer than two rows
or an empty header map contribute nothing. -/
def parseOneTable : List (List String) → Except Unit (List Transaction)
  | [] => Except.ok []
  | [_] => Except.ok []
  | headerRow :: dataRows =>
    let hm := create_header_map (headerRow.map pyLower)
    if hm.isEmptyMap then Except.ok [] else parseRows hm dataRows

/-- `parse_tables` over all tables of the document. -/
def parse_tables : List (List (List String)) → Except Unit (List Transaction)
  | [] => Except.ok []
  | tbl :: more =>
    (parseOneTable tbl).bind fun ts =>
      (parse_tables more).map fun rest => ts ++ rest

/-! ## HeuristicBlockParser (`parse_transaction_text`, `parse_alternative`) -/

/-- `parse_transaction_text`: a block yields a transaction only if all four
component searches succeed; `owner` and `relationship` are the literal
string `self`. -/
def parse_transaction_text (text : String) : Option Transaction :=
  match searchLetterRun text.data, searchType text.data,
      searchDate text.data, searchAmount text.data with
  | some a, some k, some d, some amt =>
    some { asset := some (String.mk (pyStrip a)),
           transaction_type := some (String.mk k),
           date := some (String.mk d),
           amount := some (String.mk amt),
           ticker := some (extract_ticker (String.mk a)),
           owner := some "self",
           relationship := some "self" }
  | _, _, _, _ => none

/-- The class filter `re.compile(r'transaction|asset', re.I)` applied to a
div's class attribute. -/
def classMatches (cls : String) : Bool :=
  containsStr "transaction" (pyLower cls) || containsStr "asset" (pyLower cls)

/-- `parse_alternative`: div blocks whose class matches the filter and whose
text looks like a transaction are parsed as free text. -/
def parse_alternative : List (String × String) → List Transaction
  | [] => []
  | (cls, txt) :: rest =>
    if classMatches cls && is_likely_transaction txt then
      match parse_transaction_text txt with
      | some t => t :: parse_alternative rest
      | none => parse_alternative rest
    else parse_alternative rest

/-! ## RegexFallbackParser (`parse_with_regex`) -/

/-- Tail `\s*(Purchase|Sale|Exchange)\s*(date)\s*(amount)` of the findall
pattern, anchored; returns the three groups and the consumed length. Each
`\s*` is deterministic here because the following atom can never start with
whitespace. -/
def txTail (s : List Char) : Option (List Char × List Char × List Char × Nat) :=
  let w1 := (s.takeWhile pyIsSpace).length
  let s1 := s.drop w1
  match typeAt s1 with
  | none => none
  | some kLen =>
    let s2 := s1.drop kLen
    let w2 := (s2.takeWhile pyIsSpace).length
    let s3 := s2.drop w2
    match dateAt s3 with
    | none => none
    | some dLen =>
      let s4 := s3.drop dLen
      let w3 := (s4.takeWhile pyIsSpace).length
      let s5 := s4.drop w3
      match amountAt s5 with
      | none => none
      | some aLen =>
        some (s1.take kLen, s3.take dLen, s5.take aLen,
          w1 + kLen + w2 + dLen + w3 + aLen)

/-- Greedy backtracking over the length of the leading `([A-Za-z\s]+)` group
(longest candidate first, exactly the Python engine's order). -/
def tryGroup1 (s : List Char) :
    Nat → Option ((List Char × List Char × List Char × List Char) × Nat)
  | 0 => none
  | j + 1 =>
    match txTail (s.drop (j + 1)) with
    | some (k, d, a, n) => some ((s.take (j + 1), k, d, a), j + 1 + n)
    | none => tryGroup1 s j

/-- Anchored match of the whole findall pattern at the start of `s`. -/
def txAt (s : List Char) : Option ((List Char × List Char × List Char × List Char) × Nat) :=
  tryGroup1 s ((s.takeWhile azSpace).length)

/-- `re.findall` scan with a skip counter: `skip` characters are still to be
consumed by the previous match before scanning resumes, so matches are
leftmost and non-overlapping. A successful match consumes `n ≥ 1`
characters (its group 1 is nonempty): the character at the match position
and `n - 1` further ones. -/
def findallGo : List Char → Nat → List (List Char × List Char × List Char × List Char)
  | [], _ => []
  | _ :: rest, skip + 1 => findallGo rest skip
  | c :: rest, 0 =>
    if azSpace c then
      match txAt (c :: rest) with
      | some (g, n) => g :: findallGo rest (n - 1)
      | none => findallGo rest 0
    else findallGo rest 0

/-- `re.findall` for the transaction pattern. -/
def findallTx (s : List Char) : List (List Char × List Char × List Char × List Char) :=
  findallGo s 0

/-- `parse_with_regex`: every findall match yields a transaction with
`owner` and `relationship` defaulted to `self`; no `raw_text` key is set. -/
def parse_with_regex (html : String) : List Transaction :=
  (findallTx html.data).map fun g =>
    { asset := some (String.mk (pyStrip g.1)),
      transaction_type := some (String.mk g.2.1),
      date := some (String.mk g.2.2.1),
      amount := some (String.mk g.2.2.2),
      ticker := some (extract_ticker (String.mk g.1)),
      owner := some "self",
      relationship := some "self" }

/-! ## ParserChain (`extract_transactions_with_fallback`) -/

/-- `extract_transactions_with_fallback`: the three strategies in order, each
tried only when the previous produced no transactions. Only the table tier
can raise (index errors propagate out of it uncaught). -/
def extract_transactions_with_fallback (d : Doc) : Except Unit (List Transaction) :=
  (parse_tables d.tables).bind fun t1 =>
    if t1.isEmpty then
      let t2 := parse_alternative d.divs
      if t2.isEmpty then Except.ok (parse_with_regex d.text)
      else Except.ok t2
    else Except.ok t1

/-! ## RecordNormalizer (the report assembly in `process_report`) -/

/-- The report record assembled by `process_report` from the downloaded
markup and the parsed transactions. -/
structure ReportRecord where
  name : String
  link : String
  date_filed : Option String
  office : Option String
  report_type : Option String
  transactions : List Transaction
  transaction_count : Nat
  extraction_date : String
  extraction_success : Bool
deriving DecidableEq, Repr

/-- The `report_result` dict of `process_report`:
`extraction_success = len(transactions) > 0 or 'No transactions' in html`. -/
def mkReportResult (name link : String) (dateFiled office reportType : Option String)
    (transactions : List Transaction) (htmlContent : String)
    (now : String) : ReportRecord where
  name := name
  link := link
  date_filed := dateFiled
  office := office
  report_type := reportType
  transactions := transactions
  transaction_count := transactions.length
  extraction_date := now
  extraction_success := decide (0 < transactions.length) || containsStr "No transactions" htmlContent

/-! ## Fetcher (`download_report_with_enhanced_retry`)

The Selenium driver and the requests session are oracles indexed by how many
times they have been called for the report URL; the observable calls of one
download are recorded as an event trace. `establish_session` cannot raise
(all of its work is inside its own try blocks and its return value is
ignored by the fetcher), so a refresh is a single trace event. -/

/-- Outcome of one `driver.get(url)` render: an exception, or a page with a
title and a page source. -/
inductive RenderOutcome
  | err
  | page (title source : String)
deriving DecidableEq, Repr

/-- Oracles for the fetcher's environment: `render k` is the outcome of the
`k`-th `driver.get(url)`, `direct k` of the `k`-th `session.get(url)`
(`none` = exception, otherwise status code and body). -/
structure FetchEnv where
  render : Nat → RenderOutcome
  direct : Nat → Option (Nat × String)

/-- Observable fetcher calls. -/
inductive FEvent
  | attemptStart
  | renderGet
  | refresh
  | directGet
deriving DecidableEq, Repr, BEq

/-- Number of occurrences of an event in a trace. -/
def countEv (e : FEvent) : List FEvent → Nat
  | [] => 0
  | x :: xs => (if x = e then 1 else 0) + countEv e xs

/-- The redirect-to-home detection `"eFD: Home" in self.driver.title`. -/
def homeMarker (title : String) : Bool :=
  containsStr "eFD: Home" title

/-- One render attempt (attempts 0–2): on a marker hit the session is
refreshed and the same URL fetched once more inside the same attempt; a
second marker hit, or any exception, fails the attempt. Returns the
downloaded source (if any), the events of the attempt, and the new render
call counter. -/
def renderAttempt (env : FetchEnv) (rk : Nat) :
    Option String × List FEvent × Nat :=
  match env.render rk with
  | RenderOutcome.err => (none, [FEvent.renderGet], rk + 1)
  | RenderOutcome.page t1 s1 =>
    if homeMarker t1 then
      match env.render (rk + 1) with
      | RenderOutcome.err =>
        (none, [FEvent.renderGet, FEvent.refresh, FEvent.renderGet], rk + 2)
      | RenderOutcome.page t2 s2 =>
        if homeMarker t2 then
          (none, [FEvent.renderGet, FEvent.refresh, FEvent.renderGet], rk + 2)
        else
          (some s2, [FEvent.renderGet, FEvent.refresh, FEvent.renderGet], rk + 2)
    else (some s1, [FEvent.renderGet], rk + 1)

/-- One direct-requests attempt (attempts 3 and later): succeeds only on
status 200; an exception or another status fails the attempt. -/
def directAttempt (env : FetchEnv) (dk : Nat) :
    Option String × List FEvent × Nat :=
  match env.direct dk with
  | none => (none, [FEvent.directGet], dk + 1)
  | some (status, body) =>
    (if status = 200 then some body else none, [FEvent.directGet], dk + 1)

/-- The retry loop `for attempt in range(max_retries)`: `fuel` is the number
of attempts left, `attempt` the current index (render strategy while
`attempt < 3`). Returns the result (`none` = the final `return None`) and
the full event trace. -/
def downloadGo (env : FetchEnv) : Nat → Nat → Nat → Nat → Option String × List FEvent
  | 0, _, _, _ => (none, [])
  | fuel + 1, attempt, rk, dk =>
    if attempt < 3 then
      match renderAttempt env rk with
      | (some s, evs, _) => (some s, FEvent.attemptStart :: evs)
      | (none, evs, rk') =>
        let r := downloadGo env fuel (attempt + 1) rk' dk
        (r.1, FEvent.attemptStart :: evs ++ r.2)
    else
      match directAttempt env dk with
      | (some s, evs, _) => (some s, FEvent.attemptStart :: evs)
      | (none, evs, dk') =>
        let r := downloadGo env fuel (attempt + 1) rk dk'
        (r.1, FEvent.attemptStart :: evs ++ r.2)

/-- `download_report_with_enhanced_retry` (default `max_retries = 5`). -/
def download_report_with_enhanced_retry (env : FetchEnv) (maxRetries : Nat := 5) :
    Option String × List FEvent :=
  downloadGo env maxRetries 0 0 0

/-! ## SessionManager (`establish_session_once`)

The consent strategies are driven by oracles; the observable portal
interactions are traced. `state` is the `session_established` flag. -/

/-- Outcome of the Selenium consent strategy up to the cookie transfer:
the gate-page load or the checkbox wait/click can raise. -/
inductive SelOutcome
  | getErr
  | clickErr
  | ok
deriving DecidableEq, Repr

/-- Oracles for session acquisition: the Selenium strategy's outcome, the
body of the direct `GET /search/` (`none` = exception), the discovered
agreement form's `action` attribute (outer `none` = no form element), and
the status of the consent POST (`none` = exception). -/
structure SessionEnv where
  sel : SelOutcome
  gateBody : Option String
  formAction : Option (Option String)
  postStatus : Option Nat

/-- Observable session-acquisition calls. -/
inductive SEvent
  | gateLoad
  | consentClick
  | httpGateGet
  | formPost
deriving DecidableEq, Repr, BEq

/-- `establish_session_once`: returns the result, the new
`session_established` flag, and the trace. When the flag is already set the
function returns `True` immediately, touching nothing. -/
def establish_session_once (env : SessionEnv) (established : Bool) :
    Bool × Bool × List SEvent :=
  if established then (true, established, [])
  else
    match env.sel with
    | SelOutcome.ok => (true, true, [SEvent.gateLoad, SEvent.consentClick])
    | SelOutcome.getErr => sessionStrategy2 env [SEvent.gateLoad]
    | SelOutcome.clickErr => sessionStrategy2 env [SEvent.gateLoad]
where
  /-- The direct-requests consent strategy (strategy 2). -/
  sessionStrategy2 (env : SessionEnv) (evs : List SEvent) : Bool × Bool × List SEvent :=
    match env.gateBody with
    | none => (false, false, evs ++ [SEvent.httpGateGet])
    | some body =>
      if containsStr "agree_statement" body then
        match env.formAction with
        | some (some _) =>
          match env.postStatus with
          | none => (false, false, evs ++ [SEvent.httpGateGet, SEvent.formPost])
          | some status =>
            if status = 200 then (true, true, evs ++ [SEvent.httpGateGet, SEvent.formPost])
            else (false, false, evs ++ [SEvent.httpGateGet, SEvent.formPost])
        | _ => (false, false, evs ++ [SEvent.httpGateGet])
      else (false, false, evs ++ [SEvent.httpGateGet])

/-! ## Concrete documents and environments used by the claims -/

/-- A table whose header maps `amount` to column 3 while a data row has only
three cells: `cell_texts[3]` raises `IndexError` in the source. -/
def shortRowDoc : Doc where
  tables := [[["Asset", "Type", "Date", "Amount"], ["IBM", "Purchase", "01/02/2023"]]]

/-- The header/row scenario of the specification (claim about
`ticker = "AAPL"`). -/
def janeTables : List (List (List String)) :=
  [[["First Name", "Last Name", "Asset", "Transaction Type", "Date"],
    ["Jane", "Doe", "Apple Inc (AAPL) - Purchase", "Purchase", "01/02/2023"]]]

/-- What `parse_tables` actually emits on `janeTables`: the synonym `name`
matches the header `first name` at index 0, so the asset is `Jane` and the
ticker is Python `None`. -/
def janeTrans : Transaction where
  asset := some "Jane"
  ticker := some none
  transaction_type := some "Purchase"
  date := some "01/02/2023"
  raw_text := some "Jane | Doe | Apple Inc (AAPL) - Purchase | Purchase | 01/02/2023"
  cell_count := some 5

/-- The specification's regex-tier scenario text. -/
def goldmanText : String := "Goldman Sachs Group Purchase 03/04/2022 $1,001-$15,000"

/-- A document with no tables and no divs, so only the regex tier fires. -/
def goldmanDoc : Doc where
  text := goldmanText

/-- The single transaction the regex tier emits on `goldmanText`; the dict
has no `raw_text` key. -/
def goldmanTrans : Transaction where
  asset := some "Goldman Sachs Group"
  ticker := some none
  transaction_type := some "Purchase"
  date := some "03/04/2022"
  amount := some "$1,001-$15,000"
  owner := some "self"
  relationship := some "self"

/-- A heuristic-tier block text that contains a spouse keyword. -/
def spouseText : String := "Spouse Apple Inc Purchase 01/02/2023 $1,000"

/-- One div whose class matches the transaction filter. -/
def spouseDivs : List (String × String) := [("transaction-box", spouseText)]

/-- The transaction the heuristic tier emits on `spouseText`: owner and
relationship are hard-coded `self` although the text names a spouse. -/
def spouseTrans : Transaction where
  asset := some "Spouse Apple Inc Purchase"
  ticker := some none
  transaction_type := some "Purchase"
  date := some "01/02/2023"
  amount := some "$1,000"
  owner := some "self"
  relationship := some "self"

/-- Cells and header map for a well-formed structured-table row. -/
def rawCells : List String := ["Apple", "Purchase", "01/02/2023"]

/-- Header map of the headers `asset`, `transaction`, `date`. -/
def rawHm : HeaderMap := create_header_map ["asset", "transaction", "date"]

/-- The transaction extracted from `rawCells` under `rawHm`. -/
def rawTrans : Transaction where
  asset := some "Apple"
  ticker := some none
  transaction_type := some "Purchase"
  date := some "01/02/2023"
  raw_text := some "Apple | Purchase | 01/02/2023"
  cell_count := some 3

/-- A document with no tables, no divs and no regex matches. -/
def emptyDoc : Doc := {}

/-- A fetch environment in which every render and every direct request
raises. -/
def allFailEnv : FetchEnv where
  render := fun _ => RenderOutcome.err
  direct := fun _ => none

/-- A fetch environment in which every render lands on the
unauthenticated home page. -/
def homeEnv : FetchEnv where
  render := fun _ => RenderOutcome.page "eFD: Home" "stale"
  direct := fun _ => none

/-- An arbitrary session environment (never consulted once the
`session_established` flag is set). -/
def idleSessionEnv : SessionEnv where
  sel := SelOutcome.ok
  gateBody := none
  formAction := none
  postStatus := none

/-! ## Helper lemmas -/

theorem setAsset_raw_text {cells : List String} {hm : HeaderMap} {t t' : Transaction}
    (h : setAsset cells hm t = Except.ok t') : t'.raw_text = t.raw_text := by
  unfold setAsset at h
  split at h
  · cases h; rfl
  · rename_i i hA
    cases hc : getCell cells i with
    | ok v => rw [hc] at h; simp [Except.map] at h; subst h; rfl
    | error e => rw [hc] at h; simp [Except.map] at h

theorem setType_raw_text {cells : List String} {hm : HeaderMap} {t t' : Transaction}
    (h : setType cells hm t = Except.ok t') : t'.raw_text = t.raw_text := by
  unfold setType at h
  split at h
  · cases h; rfl
  · rename_i i hA
    cases hc : getCell cells i with
    | ok v => rw [hc] at h; simp [Except.map] at h; subst h; rfl
    | error e => rw [hc] at h; simp [Except.map] at h

theorem setDate_raw_text {cells : List String} {hm : HeaderMap} {t t' : Transaction}
    (h : setDate cells hm t = Except.ok t') : t'.raw_text = t.raw_text := by
  unfold setDate at h
  split at h
  · cases h; rfl
  · rename_i i hA
    cases hc : getCell cells i with
    | ok v => rw [hc] at h; simp [Except.map] at h; subst h; rfl
    | error e => rw [hc] at h; simp [Except.map] at h

theorem setAmount_raw_text {cells : List String} {hm : HeaderMap} {t t' : Transaction}
    (h : setAmount cells hm t = Except.ok t') : t'.raw_text = t.raw_text := by
  unfold setAmount at h
  split at h
  · cases h; rfl
  · rename_i i hA
    cases hc : getCell cells i with
    | ok v => rw [hc] at h; simp [Except.map] at h; subst h; rfl
    | error e => rw [hc] at h; simp [Except.map] at h

theorem setOwner_raw_text {cells : List String} {hm : HeaderMap} {t t' : Transaction}
    (h : setOwner cells hm t = Except.ok t') : t'.raw_text = t.raw_text := by
  unfold setOwner at h
  split at h
  · cases h; rfl
  · rename_i i hA
    cases hc : getCell cells i with
    | ok v => rw [hc] at h; simp [Except.map] at h; subst h; rfl
    | error e => rw [hc] at h; simp [Except.map] at h

theorem extract_cells_raw_text {cells : List String} {hm : HeaderMap} {t : Transaction}
    (h : extract_transaction_from_cells cells hm = Except.ok t) :
    t.raw_text = some (String.intercalate " | " cells) := by
  unfold extract_transaction_from_cells at h
  cases h1 : setAsset cells hm (baseTrans cells) with
  | error e => rw [h1] at h; simp [Except.bind] at h
  | ok t1 =>
    rw [h1] at h; simp only [Except.bind] at h
    cases h2 : setType cells hm t1 with
    | error e => rw [h2] at h; simp [Except.bind] at h
    | ok t2 =>
      rw [h2] at h; simp only [Except.bind] at h
      cases h3 : setDate cells hm t2 with
      | error e => rw [h3] at h; simp [Except.bind] at h
      | ok t3 =>
        rw [h3] at h; simp only [Except.bind] at h
        cases h4 : setAmount cells hm t3 with
        | error e => rw [h4] at h; simp [Except.bind] at h
        | ok t4 =>
          rw [h4] at h; simp only [Except.bind] at h
          rw [setOwner_raw_text h, setAmount_raw_text h4, setDate_raw_text h3,
            setType_raw_text h2, setAsset_raw_text h1]
          rfl

theorem ptt_owner_rel_raw {txt : String} {t : Transaction}
    (h : parse_transaction_text txt = some t) :
    t.owner = some "self" ∧ t.relationship = some "self" ∧ t.raw_text = none := by
  unfold parse_transaction_text at h
  split at h
  · injection h with h; subst h; exact ⟨rfl, rfl, rfl⟩
  · exact Option.noConfusion h

theorem parse_with_regex_fields {html : String} {t : Transaction}
    (h : t ∈ parse_with_regex html) :
    t.owner = some "self" ∧ t.relationship = some "self" ∧ t.raw_text = none := by
  unfold parse_with_regex at h
  rcases List.mem_map.mp h with ⟨g, _, rfl⟩
  exact ⟨rfl, rfl, rfl⟩

theorem parse_alternative_mem {divs : List (String × String)} {t : Transaction}
    (h : t ∈ parse_alternative divs) :
    ∃ txt, parse_transaction_text txt = some t := by
  induction divs with
  | nil => simp [parse_alternative] at h
  | cons p rest ih =>
    rcases p with ⟨cls, txt⟩
    unfold parse_alternative at h
    split at h
    · cases hp : parse_transaction_text txt with
      | none => rw [hp] at h; exact ih h
      | some u =>
        rw [hp] at h
        rcases List.mem_cons.mp h with rfl | hmem
        · exact ⟨txt, hp⟩
        · exact ih hmem
    · exact ih h

/-! ## Claim theorems -/

/-- C1: the parsing cascade is claimed never to raise; in fact a table whose
header map assigns a column index beyond a data row's cell count makes
`extract_transaction_from_cells` index out of range (`IndexError`), and the
exception propagates uncaught out of `parse_tables` and
`extract_transactions_with_fallback`. `shortRowDoc` (header with four mapped
columns, data row with three cells, which passes the `len(cells) >= 3`
guard) exhibits it. -/
theorem parse_chain_short_row_raises :
    parse_tables shortRowDoc.tables = Except.error () ∧
    extract_transactions_with_fallback shortRowDoc = Except.error () :=
  ⟨rfl, rfl⟩

/-- C2 counterexample: on `goldmanDoc` the cascade falls through to the
regex tier, which emits one transaction whose dict has no `raw_text` key at
all, refuting "every Transaction produced by any of the three parsing tiers
has its `raw_text` field populated". -/
theorem regex_tier_drops_raw_text :
    extract_transactions_with_fallback goldmanDoc = Except.ok [goldmanTrans] ∧
    goldmanTrans.raw_text = none :=
  ⟨rfl, rfl⟩

/-- C2 (amended): `raw_text` is populated (with the cell concatenation) on
every transaction of the structured-table tier, while the heuristic-block
and regex tiers never set a `raw_text` key. -/
theorem raw_text_by_tier :
    (∀ (cells : List String) (hm : HeaderMap) (t : Transaction),
      extract_transaction_from_cells cells hm = Except.ok t →
        t.raw_text = some (String.intercalate " | " cells)) ∧
    (∀ (txt : String) (t : Transaction), parse_transaction_text txt = some t →
      t.raw_text = none) ∧
    (∀ (html : String) (t : Transaction), t ∈ parse_with_regex html →
      t.raw_text = none) :=
  ⟨fun _ _ _ h => extract_cells_raw_text h,
   fun _ _ h => (ptt_owner_rel_raw h).2.2,
   fun _ _ h => (parse_with_regex_fields h).2.2⟩

/-- C2 witness: the amended statement applied to a concrete row of each
tier. -/
theorem raw_text_by_tier_witness :
    rawTrans.raw_text = some (String.intercalate " | " rawCells) ∧
    spouseTrans.raw_text = none ∧ goldmanTrans.raw_text = none :=
  ⟨raw_text_by_tier.1 rawCells rawHm rawTrans rfl,
   raw_text_by_tier.2.1 spouseText spouseTrans rfl,
   raw_text_by_tier.2.2 goldmanText goldmanTrans (by decide)⟩

/-- C3 counterexample: on the specification's header/row scenario the
structured parser emits exactly one transaction, but its `ticker` is Python
`None`, not `"AAPL"` — the asset synonym `name` fuzzily matches the header
`First Name`, so the asset cell is `Jane`. -/
theorem table_scenario_ticker_not_aapl :
    parse_tables janeTables = Except.ok [janeTrans] ∧
    janeTrans.ticker ≠ some (some "AAPL") :=
  ⟨rfl, by decide⟩

/-- C3 (amended): the scenario yields exactly one transaction whose asset is
`Jane` (column 0, matched by the `name` synonym) and whose ticker is
`None`. -/
theorem table_scenario_result :
    parse_tables janeTables = Except.ok [janeTrans] ∧
    janeTrans.asset = some "Jane" ∧ janeTrans.ticker = some none :=
  ⟨rfl, rfl, rfl⟩

theorem countEv_append (e : FEvent) (l1 l2 : List FEvent) :
    countEv e (l1 ++ l2) = countEv e l1 + countEv e l2 := by
  induction l1 with
  | nil => simp [countEv]
  | cons x xs ih => simp [countEv, ih]; omega

theorem renderAttempt_no_start (env : FetchEnv) (rk : Nat) :
    countEv FEvent.attemptStart ((renderAttempt env rk).2.1) = 0 := by
  unfold renderAttempt
  cases env.render rk with
  | err => rfl
  | page t1 s1 =>
    by_cases h : homeMarker t1 = true
    · simp only [h, if_true]
      cases env.render (rk + 1) with
      | err => rfl
      | page t2 s2 =>
        by_cases h2 : homeMarker t2 = true
        · simp only [h2, if_true]; rfl
        · simp only [h2, if_false]; rfl
    · simp only [h, if_false]; rfl

theorem directAttempt_no_start (env : FetchEnv) (dk : Nat) :
    countEv FEvent.attemptStart ((directAttempt env dk).2.1) = 0 := by
  unfold directAttempt
  cases env.direct dk with
  | none => rfl
  | some p => rfl

theorem downloadGo_count_le (env : FetchEnv) :
    ∀ fuel attempt rk dk : Nat,
      countEv FEvent.attemptStart ((downloadGo env fuel attempt rk dk).2) ≤ fuel := by
  intro fuel
  induction fuel with
  | zero => intro attempt rk dk; simp [downloadGo, countEv]
  | succ n ih =>
    intro attempt rk dk
    unfold downloadGo
    by_cases hA : attempt < 3
    · simp only [hA, if_true]
      have hcnt := renderAttempt_no_start env rk
      rcases hR : renderAttempt env rk with ⟨res, evs, rk'⟩
      rw [hR] at hcnt
      simp only at hcnt
      cases res with
      | some s =>
        have hx : countEv FEvent.attemptStart (FEvent.attemptStart :: evs) =
            1 + countEv FEvent.attemptStart evs := by simp [countEv]
        rw [hx, hcnt]
        omega
      | none =>
        dsimp only
        have hrec := ih (attempt + 1) rk' dk
        have hx : countEv FEvent.attemptStart
            ((FEvent.attemptStart :: evs) ++ (downloadGo env n (attempt + 1) rk' dk).2) =
            1 + (countEv FEvent.attemptStart evs +
              countEv FEvent.attemptStart ((downloadGo env n (attempt + 1) rk' dk).2)) := by
          simp [countEv, countEv_append]
        rw [hx, hcnt]
        omega
    · simp only [hA, if_false]
      have hcnt := directAttempt_no_start env dk
      rcases hD : directAttempt env dk with ⟨res, evs, dk'⟩
      rw [hD] at hcnt
      simp only at hcnt
      cases res with
      | some s =>
        have hx : countEv FEvent.attemptStart (FEvent.attemptStart :: evs) =
            1 + countEv FEvent.attemptStart evs := by simp [countEv]
        rw [hx, hcnt]
        omega
      | none =>
        dsimp only
        have hrec := ih (attempt + 1) rk dk'
        have hx : countEv FEvent.attemptStart
            ((FEvent.attemptStart :: evs) ++ (downloadGo env n (attempt + 1) rk dk').2) =
            1 + (countEv FEvent.attemptStart evs +
              countEv FEvent.attemptStart ((downloadGo env n (attempt + 1) rk dk').2)) := by
          simp [countEv, countEv_append]
        rw [hx, hcnt]
        omega

theorem downloadGo_allfail (env : FetchEnv)
    (h1 : ∀ k, env.render k = RenderOutcome.err)
    (h2 : ∀ k, env.direct k = none) :
    ∀ fuel attempt rk dk : Nat,
      (downloadGo env fuel attempt rk dk).1 = none ∧
      countEv FEvent.attemptStart ((downloadGo env fuel attempt rk dk).2) = fuel := by
  intro fuel
  induction fuel with
  | zero => intro _ _ _; exact ⟨rfl, rfl⟩
  | succ n ih =>
    intro attempt rk dk
    unfold downloadGo
    by_cases hA : attempt < 3
    · simp only [hA, if_true]
      have hR : renderAttempt env rk = (none, [FEvent.renderGet], rk + 1) := by
        unfold renderAttempt; rw [h1 rk]
      rw [hR]
      dsimp only
      have hrec := ih (attempt + 1) (rk + 1) dk
      refine ⟨hrec.1, ?_⟩
      have hx : countEv FEvent.attemptStart
          ([FEvent.attemptStart, FEvent.renderGet] ++
            (downloadGo env n (attempt + 1) (rk + 1) dk).2) =
          1 + countEv FEvent.attemptStart ((downloadGo env n (attempt + 1) (rk + 1) dk).2) := by
        simp [countEv, countEv_append]
      rw [hx, hrec.2]
      omega
    · simp only [hA, if_false]
      have hD : directAttempt env dk = (none, [FEvent.directGet], dk + 1) := by
        unfold directAttempt; rw [h2 dk]
      rw [hD]
      dsimp only
      have hrec := ih (attempt + 1) rk (dk + 1)
      refine ⟨hrec.1, ?_⟩
      have hx : countEv FEvent.attemptStart
          ([FEvent.attemptStart, FEvent.directGet] ++
            (downloadGo env n (attempt + 1) rk (dk + 1)).2) =
          1 + countEv FEvent.attemptStart ((downloadGo env n (attempt + 1) rk (dk + 1)).2) := by
        simp [countEv, countEv_append]
      rw [hx, hrec.2]
      omega

/-- C4 (amended): the fetcher performs at most `max_retries` attempts, and
when every attempt fails (every render and every direct request raising) it
returns Python `None` after exactly `max_retries` attempts — it does not
raise: the source catches every exception inside the loop and ends with
`return None`, and no `FetchError` exists. -/
theorem download_retry_bound_and_none :
    ∀ (env : FetchEnv) (maxR : Nat),
      countEv FEvent.attemptStart ((download_report_with_enhanced_retry env maxR).2) ≤ maxR ∧
      ((∀ k, env.render k = RenderOutcome.err) → (∀ k, env.direct k = none) →
        (download_report_with_enhanced_retry env maxR).1 = none ∧
        countEv FEvent.attemptStart ((download_report_with_enhanced_retry env maxR).2) = maxR) :=
  fun env maxR =>
    ⟨downloadGo_count_le env maxR 0 0 0,
     fun h1 h2 => downloadGo_allfail env h1 h2 maxR 0 0 0⟩

/-- C4 witness: the amended statement at the concrete all-failing
environment with the default retry budget. -/
theorem download_retry_bound_and_none_witness :
    (download_report_with_enhanced_retry allFailEnv 5).1 = none ∧
    countEv FEvent.attemptStart ((download_report_with_enhanced_retry allFailEnv 5).2) ≤ 5 :=
  ⟨((download_retry_bound_and_none allFailEnv 5).2 (fun _ => rfl) (fun _ => rfl)).1,
   (download_retry_bound_and_none allFailEnv 5).1⟩

/-- C4 counterexample: with every attempt failing, the download returns the
ordinary value `None` — there is no exception path, refuting the claim that
exhaustion raises a `FetchError` rather than returning a non-error value. -/
theorem download_exhaustion_returns_none :
    (download_report_with_enhanced_retry allFailEnv 5).1 = none := rfl

/-- C5: on a render attempt whose first fetch lands on the unauthenticated
home page, the fetcher performs exactly one session refresh and exactly one
re-fetch of the same URL within that same attempt (the events of the attempt
are exactly get, refresh, get), and if the re-fetch lands on the marker page
again the attempt produces no result, i.e. it is consumed against the retry
budget. -/
theorem render_marker_refresh_once :
    ∀ (env : FetchEnv) (rk : Nat) (t1 s1 : String),
      env.render rk = RenderOutcome.page t1 s1 → homeMarker t1 = true →
      (renderAttempt env rk).2.1 = [FEvent.renderGet, FEvent.refresh, FEvent.renderGet] ∧
      countEv FEvent.refresh ((renderAttempt env rk).2.1) = 1 ∧
      countEv FEvent.renderGet ((renderAttempt env rk).2.1) = 2 ∧
      (∀ t2 s2, env.render (rk + 1) = RenderOutcome.page t2 s2 → homeMarker t2 = true →
        (renderAttempt env rk).1 = none) := by
  intro env rk t1 s1 h1 hm1
  have hevs : (renderAttempt env rk).2.1 =
      [FEvent.renderGet, FEvent.refresh, FEvent.renderGet] := by
    unfold renderAttempt
    rw [h1]
    simp only [hm1, if_true]
    cases env.render (rk + 1) with
    | err => rfl
    | page t2 s2 =>
      by_cases h2 : homeMarker t2 = true
      · simp only [h2]
        rfl
      · simp only [h2]
        rfl
  refine ⟨hevs, by rw [hevs]; rfl, by rw [hevs]; rfl, ?_⟩
  intro t2 s2 h2 hm2
  unfold renderAttempt
  rw [h1]
  simp only [hm1, if_true]
  rw [h2]
  simp [hm2]

/-- C5 witness: a concrete environment whose renders always land on the
marker page, at the first attempt. -/
theorem render_marker_refresh_once_witness :
    (renderAttempt homeEnv 0).2.1 = [FEvent.renderGet, FEvent.refresh, FEvent.renderGet] ∧
    (renderAttempt homeEnv 0).1 = none :=
  ⟨(render_marker_refresh_once homeEnv 0 "eFD: Home" "stale" rfl rfl).1,
   (render_marker_refresh_once homeEnv 0 "eFD: Home" "stale" rfl rfl).2.2.2
     "eFD: Home" "stale" rfl rfl⟩

/-- C6: the second strategy is consulted only when the table tier returned
zero transactions and the regex tier only when the heuristic tier also
returned zero; the chain's result is the first non-empty strategy result
(and the regex tier's result — possibly `[]` — when the first two are
empty). -/
theorem fallback_first_nonempty :
    ∀ (d : Doc) (t1 : List Transaction), parse_tables d.tables = Except.ok t1 →
      (t1 ≠ [] → extract_transactions_with_fallback d = Except.ok t1) ∧
      (t1 = [] → parse_alternative d.divs ≠ [] →
        extract_transactions_with_fallback d = Except.ok (parse_alternative d.divs)) ∧
      (t1 = [] → parse_alternative d.divs = [] →
        extract_transactions_with_fallback d = Except.ok (parse_with_regex d.text)) := by
  intro d t1 h
  unfold extract_transactions_with_fallback
  rw [h]
  simp only [Except.bind]
  refine ⟨?_, ?_, ?_⟩
  · intro hne
    cases t1 with
    | nil => exact absurd rfl hne
    | cons a l => simp [List.isEmpty]
  · intro he hne
    subst he
    rcases hpa : parse_alternative d.divs with _ | ⟨a, l⟩
    · exact absurd hpa hne
    · simp [List.isEmpty]
  · intro he hpa
    subst he
    rw [hpa]
    simp [List.isEmpty]

/-- C6 witness: a document on which all three tiers are empty; the chain
returns the empty list. -/
theorem fallback_first_nonempty_witness :
    extract_transactions_with_fallback emptyDoc = Except.ok [] :=
  ((fallback_first_nonempty emptyDoc [] rfl).2.2 rfl rfl).trans rfl

/-- C7: the assembled report record has `extraction_success = false` exactly
when the transaction list is empty and the literal `No transactions` does
not occur in the downloaded markup. -/
theorem extraction_success_iff :
    ∀ (name link now html : String) (df off rt : Option String)
      (ts : List Transaction),
      (mkReportResult name link df off rt ts html now).extraction_success = false ↔
        ts = [] ∧ containsStr "No transactions" html = false := by
  intro name link now html df off rt ts
  show (decide (0 < ts.length) || containsStr "No transactions" html) = false ↔ _
  rw [Bool.or_eq_false_iff]
  constructor
  · rintro ⟨hd, hc⟩
    refine ⟨?_, hc⟩
    cases ts with
    | nil => rfl
    | cons a l => simp at hd
  · rintro ⟨rfl, hc⟩
    exact ⟨rfl, hc⟩

/-- C7 witness: empty transactions and a page without the marker. -/
theorem extraction_success_iff_witness :
    (mkReportResult "n" "l" none none none [] "page body" "now").extraction_success
      = false :=
  (extraction_success_iff "n" "l" "now" "page body" none none none []).mpr ⟨rfl, rfl⟩

/-- C8: `extract_ticker` tries its three patterns in the fixed source order
(bracketed code, code before a hyphen, code after a hyphen), returns the
first match and `None` otherwise; with the specification's three sample
evaluations. -/
theorem extract_ticker_order_and_values :
    (∀ s : String, extract_ticker s =
      (((searchBracket s.data).orElse fun _ => searchUpperDash s.data).orElse fun _ =>
        searchDashUpper s.data).map String.mk) ∧
    extract_ticker "Apple Inc (AAPL)" = some "AAPL" ∧
    extract_ticker "Some Fund - VOO" = some "VOO" ∧
    extract_ticker "Unrelated text" = none := by
  refine ⟨?_, rfl, rfl, rfl⟩
  intro s
  cases hb : searchBracket s.data <;> cases hu : searchUpperDash s.data <;>
    cases hd : searchDashUpper s.data <;>
    simp [extract_ticker, hb, hu, hd, Option.orElse]

/-- C8 witness: the order characterization applied at a concrete string. -/
theorem extract_ticker_order_and_values_witness :
    extract_ticker "Some Fund - VOO" = some "VOO" :=
  extract_ticker_order_and_values.2.2.1

/-- C9: session acquisition is idempotent — whenever the
`session_established` flag is set, `establish_session_once` returns success
immediately, leaves the state unchanged and performs no portal interaction
(no gate-page load, no consent click, no form POST), for every environment
of consent-strategy outcomes. -/
theorem establish_session_once_idempotent :
    ∀ env : SessionEnv, establish_session_once env true = (true, true, []) :=
  fun _ => rfl

/-- C9 witness: the idempotency statement at a concrete environment. -/
theorem establish_session_once_idempotent_witness :
    establish_session_once idleSessionEnv true = (true, true, []) :=
  establish_session_once_idempotent idleSessionEnv

/-- C10: every transaction emitted by the heuristic block tier carries the
hard-coded `owner = "self"` and `relationship = "self"`, whatever the block
text says — the relationship classifier is not consulted in this tier. -/
theorem alternative_tier_owner_self :
    (∀ (txt : String) (t : Transaction), parse_transaction_text txt = some t →
      t.owner = some "self" ∧ t.relationship = some "self") ∧
    (∀ (divs : List (String × String)) (t : Transaction),
      t ∈ parse_alternative divs →
        t.owner = some "self" ∧ t.relationship = some "self") := by
  constructor
  · intro txt t h
    exact ⟨(ptt_owner_rel_raw h).1, (ptt_owner_rel_raw h).2.1⟩
  · intro divs t h
    obtain ⟨txt, hp⟩ := parse_alternative_mem h
    exact ⟨(ptt_owner_rel_raw hp).1, (ptt_owner_rel_raw hp).2.1⟩

/-- C10 witness: a block that names a spouse (the classifier would say
`spouse`) still yields `owner = relationship = "self"`. -/
theorem alternative_tier_owner_self_witness :
    identify_transaction_owner spouseText = "spouse" ∧
    spouseTrans.owner = some "self" ∧ spouseTrans.relationship = some "self" :=
  ⟨rfl,
   (alternative_tier_owner_self.2 spouseDivs spouseTrans (by decide)).1,
   (alternative_tier_owner_self.2 spouseDivs spouseTrans (by decide)).2⟩
